import Mathlib

/-!
Verification of the contact-book program (`main.py`) against its
natural-language specification.

The program is shallowly embedded below.  Python exceptions are modelled by
the `PyExc` type together with `Except`; the in-place mutation of `Record`
objects held by the address-book dictionary is modelled by explicit state
passing (`updateAt` rewrites the value stored under a key, which is what an
in-place mutation of the aliased object amounts to, since each record object
occurs in the dictionary at most once).  `datetime.date` values are modelled
by the `Date` structure with proleptic-Gregorian ordinal arithmetic, matching
`date.toordinal`/`date.weekday`.  Strings are Lean strings; `str.isdigit` is
modelled as "non-empty and every character is an ASCII decimal digit" (Python
additionally accepts some non-ASCII Unicode digit characters, which this
development does not model), and `strftime("%Y")` is modelled as the
documented zero-padded four-digit form.
-/

namespace Hw08

/-- Python exceptions relevant to this program. -/
inductive PyExc where
  | valueError (msg : String)
  | keyError
  | indexError
deriving DecidableEq, Repr

/-- Decidable equality for `Except`, so that concrete runs of the embedded
program can be checked by `decide`. -/
instance {ε α : Type} [DecidableEq ε] [DecidableEq α] :
    DecidableEq (Except ε α) := fun x y =>
  match x, y with
  | .ok a, .ok b =>
    if h : a = b then .isTrue (congrArg Except.ok h)
    else .isFalse (fun hc => h (Except.ok.inj hc))
  | .error a, .error b =>
    if h : a = b then .isTrue (congrArg Except.error h)
    else .isFalse (fun hc => h (Except.error.inj hc))
  | .ok _, .error _ => .isFalse (fun hc => Except.noConfusion hc)
  | .error _, .ok _ => .isFalse (fun hc => Except.noConfusion hc)

/-- A calendar date, as in `datetime.date` (year, month, day). -/
structure Date where
  year : Nat
  month : Nat
  day : Nat
deriving DecidableEq, Repr

/-- Gregorian leap-year test. -/
def isLeap (y : Nat) : Bool :=
  (y % 4 == 0 && y % 100 != 0) || y % 400 == 0

/-- Number of days in a month of a given year. -/
def daysInMonth (y m : Nat) : Nat :=
  if m = 2 then (if isLeap y then 29 else 28)
  else if m = 4 ∨ m = 6 ∨ m = 9 ∨ m = 11 then 30
  else 31

/-- Validity of a date, as enforced by the `datetime.date` constructor
(years 1..9999). -/
def Date.validB (d : Date) : Bool :=
  decide (1 ≤ d.year) && decide (d.year ≤ 9999) &&
  decide (1 ≤ d.month) && decide (d.month ≤ 12) &&
  decide (1 ≤ d.day) && decide (d.day ≤ daysInMonth d.year d.month)

/-- Days in all years strictly before year `y` (proleptic Gregorian). -/
def daysBeforeYear (y : Nat) : Nat :=
  365 * (y - 1) + (y - 1) / 4 + (y - 1) / 400 - (y - 1) / 100

/-- Days in all months of year `y` strictly before month `m`. -/
def daysBeforeMonth (y m : Nat) : Nat :=
  ((List.range (m - 1)).map (fun i => daysInMonth y (i + 1))).sum

/-- Model of `date.toordinal`: day number with `0001-01-01` as day 1. -/
def Date.toOrdinal (d : Date) : Nat :=
  daysBeforeYear d.year + daysBeforeMonth d.year d.month + d.day

/-- Model of `date.weekday`: Monday = 0 .. Sunday = 6. -/
def Date.weekday (d : Date) : Nat :=
  (d.toOrdinal + 6) % 7

/-- The day after `d` (for valid `d`). -/
def Date.next (d : Date) : Date :=
  if d.day < daysInMonth d.year d.month then ⟨d.year, d.month, d.day + 1⟩
  else if d.month < 12 then ⟨d.year, d.month + 1, 1⟩
  else ⟨d.year + 1, 1, 1⟩

/-- The date `d + timedelta(days = k)` for `k ≥ 0`. -/
def Date.addDays (d : Date) : Nat → Date
  | 0 => d
  | k + 1 => (d.addDays k).next

/-- Model of `date.replace(year = y)`: fails (`ValueError`) when the month/day do not
exist in the new year (e.g. Feb 29 in a non-leap year). -/
def Date.replaceYear (d : Date) (y : Nat) : Except PyExc Date :=
  if (Date.mk y d.month d.day).validB then .ok ⟨y, d.month, d.day⟩
  else .error (.valueError "day is out of range for month")

/-- The character for the decimal digit `n` (`n ≤ 9`). -/
def digitChar (n : Nat) : Char := Char.ofNat (48 + n)

/-- Numeric value of a decimal digit character. -/
def charVal (c : Char) : Nat := c.toNat - 48

/-- ASCII decimal-digit test (model of the digit test used by the program). -/
def isDigitChar (c : Char) : Bool := c.isDigit

/-- Zero-padded two-digit decimal rendering (`%d`, `%m`), for `n < 100`. -/
def pad2 (n : Nat) : List Char := [digitChar (n / 10), digitChar (n % 10)]

/-- Zero-padded four-digit decimal rendering (`%Y`), for `n < 10000`. -/
def pad4 (n : Nat) : List Char :=
  [digitChar (n / 1000), digitChar (n / 100 % 10), digitChar (n / 10 % 10),
   digitChar (n % 10)]

/-- Rendering with `strftime("%d.%m.%Y")`. -/
def strftime_dmy (d : Date) : String :=
  ⟨pad2 d.day ++ '.' :: pad2 d.month ++ '.' :: pad4 d.year⟩

/-- Rendering with `strftime("%Y.%m.%d")`. -/
def strftime_ymd (d : Date) : String :=
  ⟨pad4 d.year ++ '.' :: pad2 d.month ++ '.' :: pad2 d.day⟩

/-- Rendering with `strftime("%d %m %Y")` (used by `Record.__str__`). -/
def strftime_dmy_spaces (d : Date) : String :=
  ⟨pad2 d.day ++ ' ' :: pad2 d.month ++ ' ' :: pad4 d.year⟩

/-- Split a character list at every occurrence of the separator, as
`str.split(sep)` does (so the empty string yields one empty group). -/
def splitSep (sep : Char) : List Char → List (List Char)
  | [] => [[]]
  | c :: rest =>
    if c = sep then [] :: splitSep sep rest
    else
      match splitSep sep rest with
      | g :: gs => (c :: g) :: gs
      | [] => [[c]]

/-- Value of a list of decimal digit characters. -/
def numVal (cs : List Char) : Nat :=
  cs.foldl (fun acc c => 10 * acc + charVal c) 0

/-- The `%d` directive of `strptime`: the token language is
`3[0-1]|[1-2]\d|0[1-9]|[1-9]| [1-9]` — i.e. two digits with value 1..31,
one digit 1..9, or a space followed by a digit 1..9. -/
def dayTok (cs : List Char) : Option Nat :=
  match cs with
  | [c] => if isDigitChar c ∧ 1 ≤ charVal c then some (charVal c) else none
  | [c1, c2] =>
    if c1 = ' ' then
      if isDigitChar c2 ∧ 1 ≤ charVal c2 then some (charVal c2) else none
    else if isDigitChar c1 ∧ isDigitChar c2 ∧ 1 ≤ numVal [c1, c2] ∧
            numVal [c1, c2] ≤ 31 then some (numVal [c1, c2])
    else none
  | _ => none

/-- The `%m` directive of `strptime`: `1[0-2]|0[1-9]|[1-9]` — two digits with
value 1..12 or one digit 1..9. -/
def monthTok (cs : List Char) : Option Nat :=
  match cs with
  | [c] => if isDigitChar c ∧ 1 ≤ charVal c then some (charVal c) else none
  | [c1, c2] =>
    if isDigitChar c1 ∧ isDigitChar c2 ∧ 1 ≤ numVal [c1, c2] ∧
       numVal [c1, c2] ≤ 12 then some (numVal [c1, c2])
    else none
  | _ => none

/-- The `%Y` directive of `strptime`: exactly four decimal digits. -/
def yearTok (cs : List Char) : Option Nat :=
  match cs with
  | [c1, c2, c3, c4] =>
    if isDigitChar c1 ∧ isDigitChar c2 ∧ isDigitChar c3 ∧ isDigitChar c4 then
      some (numVal [c1, c2, c3, c4])
    else none
  | _ => none

/-- Model of `datetime.strptime(s, "%d.%m.%Y")` followed by the `datetime` range
check, returning the parsed date. -/
def strptime_dmy (s : String) : Except PyExc Date :=
  match splitSep '.' s.data with
  | [ds, ms, ys] =>
    match dayTok ds, monthTok ms, yearTok ys with
    | some d, some m, some y =>
      if (Date.mk y m d).validB then .ok ⟨y, m, d⟩
      else .error (.valueError "day is out of range for month")
    | _, _, _ => .error (.valueError "time data does not match format")
  | _ => .error (.valueError "time data does not match format")

/-- Model of `str.isdigit()` restricted to ASCII: non-empty and all characters are
decimal digits. -/
def pyIsdigit (s : String) : Bool :=
  !s.data.isEmpty && s.data.all isDigitChar

/-- Model of `Field.__str__`, that is `str(value)`; the stored values are strings, so this is
the identity. -/
def fieldStr (v : String) : String := v

/-- Model of `Name.__init__`: rejects the empty (falsy) string. -/
def Name.init (s : String) : Except PyExc String :=
  if s = "" then .error (.valueError "Name cannot be empty") else .ok s

/-- Model of `Phone.__init__`: rejects the string unless it is all digits of
length 10. -/
def Phone.init (s : String) : Except PyExc String :=
  if !pyIsdigit s ∨ s.length ≠ 10 then
    .error (.valueError "Invalid phone number format. Must contain 10 digits.")
  else .ok s

/-- Model of `Birthday.__init__`: parses `DD.MM.YYYY`, turning any parse failure into
the fixed `ValueError`. -/
def Birthday.init (s : String) : Except PyExc Date :=
  match strptime_dmy s with
  | .ok d => .ok d
  | .error _ => .error (.valueError "Invalid date format. Use DD.MM.YYYY")

/-- One contact: validated name, list of phone values (strings — after
`edit_phone` they need not be valid phones), optional birthday. -/
structure Record where
  name : String
  phones : List String
  birthday : Option Date
deriving DecidableEq, Repr

/-- Model of `Record.__init__(name)`. -/
def Record.init (name : String) : Except PyExc Record :=
  match Name.init name with
  | .ok n => .ok ⟨n, [], none⟩
  | .error e => .error e

/-- Model of `Record.add_phone`: validates and appends. -/
def Record.add_phone (r : Record) (phone : String) : Except PyExc Record :=
  match Phone.init phone with
  | .ok p => .ok { r with phones := r.phones ++ [p] }
  | .error e => .error e

/-- The loop of `Record.edit_phone`: every entry equal to `old` has its value
overwritten with `new`, with no validation of `new`. -/
def editLoop (old new : String) : List String → List String
  | [] => []
  | p :: ps => (if fieldStr p = old then new else p) :: editLoop old new ps

/-- Model of `Record.edit_phone`. -/
def Record.edit_phone (r : Record) (old new : String) : Record :=
  { r with phones := editLoop old new r.phones }

/-- Model of `Record.remove_phone`. -/
def Record.remove_phone (r : Record) (phone : String) : Record :=
  { r with phones := r.phones.filter (fun p => fieldStr p ≠ phone) }

/-- Model of `Record.find_phone`. -/
def Record.find_phone (r : Record) (phone : String) : Option String :=
  r.phones.find? (fun p => fieldStr p == phone)

/-- Model of `Record.add_birthday`. -/
def Record.add_birthday (r : Record) (s : String) : Except PyExc Record :=
  match Birthday.init s with
  | .ok b => .ok { r with birthday := some b }
  | .error e => .error e

/-- Model of `Record.__str__`. -/
def Record.str (r : Record) : String :=
  "Contact name: " ++ r.name ++ ", phones: " ++
  String.intercalate "; " (r.phones.map fieldStr) ++ ", Birthday: " ++
  (match r.birthday with
   | some b => strftime_dmy_spaces b
   | none => "None")

/-- The address book: the underlying `dict` of `UserDict`, as an ordered
association list with unique keys. -/
abbrev Book := List (String × Record)

/-- Model of `dict.__setitem__`: update in place when the key is present, else append. -/
def dictInsert (k : String) (v : Record) : Book → Book
  | [] => [(k, v)]
  | (k', v') :: rest =>
    if k' = k then (k, v) :: rest else (k', v') :: dictInsert k v rest

/-- Overwrite the record stored under an existing key (the model of mutating
the record object held by the dictionary in place). -/
def updateAt (name : String) (r : Record) : Book → Book
  | [] => []
  | (k, v) :: rest =>
    if k = name then (k, r) :: rest else (k, v) :: updateAt name r rest

/-- Model of `AddressBook.add_record`. -/
def AddressBook.add_record (book : Book) (r : Record) : Book :=
  dictInsert r.name r book

/-- Model of `AddressBook.find` (a `dict.get`). -/
def AddressBook.find : Book → String → Option Record
  | [], _ => none
  | (k, v) :: rest, name =>
    if k = name then some v else AddressBook.find rest name

/-- Model of `AddressBook.delete`. -/
def AddressBook.delete (book : Book) (name : String) : Book :=
  book.filter (fun p => p.1 ≠ name)

/-- Model of `dict.values()`. -/
def AddressBook.values (book : Book) : List Record :=
  book.map Prod.snd

/-- The filter-and-shift step of `get_upcoming_birthdays` for an already
computed occurrence `bty`: `days_until_birthday = (bty - today).days` must
lie in `[0, 7]`; a weekend occurrence shifts the congratulation date to the
following Monday; the output entry is the name with the congratulation date
formatted `%Y.%m.%d`. -/
def upcomingFrom (name : String) (today bty : Date) : Option (String × String) :=
  if 0 ≤ ((bty.toOrdinal : Int) - (today.toOrdinal : Int))
     ∧ ((bty.toOrdinal : Int) - (today.toOrdinal : Int)) ≤ 7 then
    some (name, strftime_ymd (Date.addDays today
      (if bty.weekday = 5 ∨ bty.weekday = 6 then
         ((bty.toOrdinal : Int) - (today.toOrdinal : Int)) + (7 - (bty.weekday : Int))
       else ((bty.toOrdinal : Int) - (today.toOrdinal : Int))).toNat))
  else none

/-- The body of the per-record iteration of `get_upcoming_birthdays`:
`none` when the record is skipped or filtered out, `some entry` when an
output entry is produced; exceptions from `date.replace` propagate. -/
def upcomingEntry (today : Date) (r : Record) :
    Except PyExc (Option (String × String)) :=
  match r.birthday with
  | none => .ok none
  | some bdate =>
    match Date.replaceYear bdate today.year with
    | .error e => .error e
    | .ok bty0 =>
      match (if bty0.toOrdinal < today.toOrdinal then
               Date.replaceYear bty0 (today.year + 1)
             else .ok bty0) with
      | .error e => .error e
      | .ok bty => .ok (upcomingFrom r.name today bty)

/-- Model of `AddressBook.get_upcoming_birthdays`, parameterized by `today` (the
program reads the ambient clock via `datetime.today()`); iterates over the
dictionary values in order. -/
def getUpcomingBirthdays (today : Date) :
    List Record → Except PyExc (List (String × String))
  | [] => .ok []
  | r :: rs =>
    match upcomingEntry today r with
    | .error e => .error e
    | .ok o =>
      match getUpcomingBirthdays today rs with
      | .error e => .error e
      | .ok rest =>
        .ok (match o with
             | some entry => entry :: rest
             | none => rest)

/-- Model of `str.split(',')`. -/
def pySplitComma (s : String) : List String :=
  (splitSep ',' s.data).map (fun g => ⟨g⟩)

/-- The `handle_errors` decorator: `ValueError` becomes its message,
`KeyError` becomes the fixed sentence, every other outcome passes through. -/
def handle_errors (r : Except PyExc String) : Except PyExc String :=
  match r with
  | .error (.valueError m) => .ok m
  | .error .keyError => .ok "This name is not entered in the phone book."
  | r => r

/-- Apply `handle_errors` to the result of a handler body, keeping the
(possibly mutated) book. -/
def wrap (p : Except PyExc String × Book) : Except PyExc String × Book :=
  (handle_errors p.1, p.2)

/-- Body of `add_contact` (before the decorator).  `name, phone, *_ = args`
raises `ValueError` on fewer than two arguments; note that when the name is
new, the empty record is inserted into the book before the phone is
validated. -/
def add_contact_body (args : List String) (book : Book) :
    Except PyExc String × Book :=
  match args with
  | name :: phone :: _ =>
    (match AddressBook.find book name with
     | some r =>
       if phone ≠ "" then
         match Record.add_phone r phone with
         | .ok r2 => (.ok "Contact updated.", updateAt name r2 book)
         | .error e => (.error e, book)
       else (.ok "Contact updated.", book)
     | none =>
       match Record.init name with
       | .error e => (.error e, book)
       | .ok r =>
         let book2 := AddressBook.add_record book r
         if phone ≠ "" then
           match Record.add_phone r phone with
           | .ok r2 => (.ok "Contact added.", updateAt name r2 book2)
           | .error e => (.error e, book2)
         else (.ok "Contact added.", book2))
  | _ =>
    (.error (.valueError ("not enough values to unpack (expected at least 2, got "
       ++ toString args.length ++ ")")), book)

/-- The `add` handler. -/
def add_contact (args : List String) (book : Book) :
    Except PyExc String × Book :=
  wrap (add_contact_body args book)

/-- The list comprehension `[Phone(p) for p in ...]`: validates left to
right, failing at the first invalid element with nothing assigned. -/
def validatePhones : List String → Except PyExc (List String)
  | [] => .ok []
  | p :: ps =>
    match Phone.init p with
    | .ok v =>
      match validatePhones ps with
      | .ok vs => .ok (v :: vs)
      | .error e => .error e
    | .error e => .error e

/-- Body of `change_contact`: `name, phone = args` requires exactly two
arguments; the comma-separated list is validated in full before the phone
list of the record is replaced. -/
def change_contact_body (args : List String) (book : Book) :
    Except PyExc String × Book :=
  match args with
  | [name, phone] =>
    (match AddressBook.find book name with
     | some r =>
       match validatePhones (pySplitComma phone) with
       | .ok ps => (.ok "Contact changed.", updateAt name { r with phones := ps } book)
       | .error e => (.error e, book)
     | none => (.ok "This name is not entered in the phone book.", book))
  | _ =>
    (.error (.valueError ("values to unpack mismatch (expected 2, got "
       ++ toString args.length ++ ")")), book)

/-- The `change` handler. -/
def change_contact (args : List String) (book : Book) :
    Except PyExc String × Book :=
  wrap (change_contact_body args book)

/-- Body of `show_phone`: `args[0]` raises `IndexError` on an empty argument
list. -/
def show_phone_body (args : List String) (book : Book) :
    Except PyExc String × Book :=
  match args with
  | [] => (.error .indexError, book)
  | name :: _ =>
    match AddressBook.find book name with
    | some r => (.ok (String.intercalate "; " (r.phones.map fieldStr)), book)
    | none => (.ok "This name is not entered in the phone book.", book)

/-- The `phone` handler. -/
def show_phone (args : List String) (book : Book) :
    Except PyExc String × Book :=
  wrap (show_phone_body args book)

/-- Body of `show_all`. -/
def show_all_body (book : Book) : Except PyExc String × Book :=
  (.ok (String.intercalate "\n" ((AddressBook.values book).map Record.str)), book)

/-- The `all` handler. -/
def show_all (book : Book) : Except PyExc String × Book :=
  wrap (show_all_body book)

/-- Body of the `add_birthday` handler. -/
def add_birthday_body (args : List String) (book : Book) :
    Except PyExc String × Book :=
  match args with
  | [name, bd] =>
    (match AddressBook.find book name with
     | some r =>
       match Record.add_birthday r bd with
       | .ok r2 => (.ok "Birthday added.", updateAt name r2 book)
       | .error e => (.error e, book)
     | none => (.ok "This name is not entered in the phone book.", book))
  | _ =>
    (.error (.valueError ("values to unpack mismatch (expected 2, got "
       ++ toString args.length ++ ")")), book)

/-- The `add-birthday` handler. -/
def add_birthday (args : List String) (book : Book) :
    Except PyExc String × Book :=
  wrap (add_birthday_body args book)

/-- Body of `show_birthday`: `args[0]` raises `IndexError` on an empty
argument list; a missing record or an unset birthday both yield the same
fixed sentence. -/
def show_birthday_body (args : List String) (book : Book) :
    Except PyExc String × Book :=
  match args with
  | [] => (.error .indexError, book)
  | name :: _ =>
    match AddressBook.find book name with
    | some r =>
      match r.birthday with
      | some b => (.ok (strftime_dmy b), book)
      | none =>
        (.ok "This name is not entered in the phone book or birthday is not set.", book)
    | none =>
      (.ok "This name is not entered in the phone book or birthday is not set.", book)

/-- The `show-birthday` handler. -/
def show_birthday (args : List String) (book : Book) :
    Except PyExc String × Book :=
  wrap (show_birthday_body args book)

/-- Body of the `birthdays` handler. -/
def birthdays_body (today : Date) (book : Book) : Except PyExc String × Book :=
  match getUpcomingBirthdays today (AddressBook.values book) with
  | .ok ub =>
    (.ok (if ub.isEmpty then "No upcoming birthdays in the next week."
          else String.intercalate "\n"
            (ub.map (fun e => "Name: " ++ e.1 ++ ", Birthday: " ++ e.2))), book)
  | .error e => (.error e, book)

/-- The `birthdays` handler, parameterized by `today`. -/
def birthdays (today : Date) (book : Book) : Except PyExc String × Book :=
  wrap (birthdays_body today book)

/-! Specification-side definitions, following the wording of the spec: the
occurrence of a birthday relative to `today`, the day distance, and the
weekend-adjusted day distance. -/

/-- The birthday with the year replaced by `today`'s year, rolled forward to
next year's occurrence when strictly before `today`. -/
def occurrenceSpec (b today : Date) : Date :=
  if (Date.mk today.year b.month b.day).toOrdinal < today.toOrdinal then
    ⟨today.year + 1, b.month, b.day⟩
  else ⟨today.year, b.month, b.day⟩

/-- The difference `occurrence − today` in days. -/
def daysUntilSpec (b today : Date) : Int :=
  ((occurrenceSpec b today).toOrdinal : Int) - (today.toOrdinal : Int)

/-- The day distance, shifted to the following Monday when the occurrence
falls on a weekend. -/
def adjDays (b today : Date) : Int :=
  if (occurrenceSpec b today).weekday = 5 ∨ (occurrenceSpec b today).weekday = 6 then
    daysUntilSpec b today + (7 - ((occurrenceSpec b today).weekday : Int))
  else daysUntilSpec b today

/-- A string of exactly ten decimal digits. -/
def tenDigits (s : String) : Prop :=
  s.length = 10 ∧ ∀ c ∈ s.data, isDigitChar c

instance (s : String) : Decidable (tenDigits s) := by
  unfold tenDigits; infer_instance

/-- The address-book invariant: every key equals the stored record's name,
and keys are pairwise distinct. -/
def bookInv (book : Book) : Prop :=
  (∀ p ∈ book, p.1 = p.2.name) ∧ (book.map Prod.fst).Nodup

/-! Helper lemmas. -/

theorem editLoop_eq_map (old new : String) (ps : List String) :
    editLoop old new ps = ps.map (fun p => if p = old then new else p) := by
  induction ps with
  | nil => rfl
  | cons p ps ih => simp [editLoop, fieldStr, ih]

theorem editLoop_no_match (old new : String) (ps : List String)
    (h : ∀ p ∈ ps, p ≠ old) : editLoop old new ps = ps := by
  induction ps with
  | nil => rfl
  | cons p ps ih =>
    rw [editLoop, fieldStr, if_neg (h p (List.mem_cons_self p ps)),
      ih (fun q hq => h q (List.mem_cons_of_mem p hq))]

theorem find_dictInsert_self (book : Book) (k : String) (v : Record) :
    AddressBook.find (dictInsert k v book) k = some v := by
  induction book with
  | nil => simp [dictInsert, AddressBook.find]
  | cons p rest ih =>
    obtain ⟨k', v'⟩ := p
    by_cases h : k' = k
    · simp [dictInsert, h, AddressBook.find]
    · simp [dictInsert, h, AddressBook.find, ih]

theorem dictInsert_dictInsert (book : Book) (k : String) (v1 v2 : Record) :
    dictInsert k v2 (dictInsert k v1 book) = dictInsert k v2 book := by
  induction book with
  | nil => simp [dictInsert]
  | cons p rest ih =>
    obtain ⟨k', v'⟩ := p
    by_cases h : k' = k
    · simp [dictInsert, h]
    · simp [dictInsert, h, ih]

theorem mem_keys_dictInsert (book : Book) (k x : String) (v : Record) :
    x ∈ (dictInsert k v book).map Prod.fst ↔ x ∈ book.map Prod.fst ∨ x = k := by
  induction book with
  | nil => simp [dictInsert]
  | cons p rest ih =>
    obtain ⟨k', v'⟩ := p
    by_cases h : k' = k
    · subst h; simp [dictInsert]; tauto
    · simp [dictInsert, h, ih]; tauto

theorem dictInsert_forall {P : String × Record → Prop} (book : Book)
    (k : String) (v : Record) (hb : ∀ p ∈ book, P p) (hkv : P (k, v)) :
    ∀ p ∈ dictInsert k v book, P p := by
  induction book with
  | nil => simpa [dictInsert] using hkv
  | cons q rest ih =>
    obtain ⟨k', v'⟩ := q
    by_cases h : k' = k
    · intro p hp
      rw [dictInsert, if_pos h] at hp
      rcases List.mem_cons.mp hp with h1 | h1
      · exact h1 ▸ hkv
      · exact hb p (List.mem_cons_of_mem _ h1)
    · intro p hp
      rw [dictInsert, if_neg h] at hp
      rcases List.mem_cons.mp hp with h1 | h1
      · exact h1 ▸ hb (k', v') (List.mem_cons_self _ _)
      · exact ih (fun q hq => hb q (List.mem_cons_of_mem _ hq)) p h1

theorem nodup_keys_dictInsert (book : Book) (k : String) (v : Record)
    (h : (book.map Prod.fst).Nodup) :
    ((dictInsert k v book).map Prod.fst).Nodup := by
  induction book with
  | nil => simp [dictInsert]
  | cons p rest ih =>
    obtain ⟨k', v'⟩ := p
    rw [List.map_cons, List.nodup_cons] at h
    by_cases hk : k' = k
    · subst hk
      simpa [dictInsert, List.nodup_cons] using h
    · rw [dictInsert, if_neg hk, List.map_cons, List.nodup_cons]
      refine ⟨fun hmem => ?_, ih h.2⟩
      rcases (mem_keys_dictInsert rest k k' v).mp hmem with h1 | h1
      · exact h.1 h1
      · exact hk h1

/-! Claims. -/

/-- Claim C3, counterexample: on a record holding phone `1234567890`,
`edit_phone("1234567890", "abc")` replaces the stored value with the invalid
string `abc` and returns normally, although `abc` is rejected by the Phone
validator — so the new value is not "validated as a Phone" and no
`ValidationError` is raised. -/
theorem C3_counterexample :
    Record.edit_phone ⟨"John", ["1234567890"], none⟩ "1234567890" "abc"
      = ⟨"John", ["abc"], none⟩
    ∧ Phone.init "abc"
      = .error (.valueError "Invalid phone number format. Must contain 10 digits.") := by
  exact ⟨by decide, by decide⟩

/-- Claim C3, amended: `edit_phone(oldRaw, newRaw)` replaces the value of
every phone entry equal to `oldRaw` with `newRaw` without any validation
(it never fails); if no entry matches `oldRaw` it is silently a no-op and
the phone list is unchanged. -/
theorem C3_edit_phone_unvalidated (r : Record) (old new : String) :
    Record.edit_phone r old new
      = { r with phones := r.phones.map (fun p => if p = old then new else p) }
    ∧ (old ∉ r.phones → Record.edit_phone r old new = r) := by
  constructor
  · rw [Record.edit_phone, editLoop_eq_map]
  · intro hmem
    rw [Record.edit_phone, editLoop_no_match]
    intro p hp hpe
    exact hmem (hpe ▸ hp)

/-- Claim C3, witness for the amended theorem at a concrete record where the
old phone is absent. -/
theorem C3_witness :
    Record.edit_phone ⟨"A", ["1111111111"], none⟩ "2222222222" "x"
      = ⟨"A", ["1111111111"], none⟩ :=
  (C3_edit_phone_unvalidated ⟨"A", ["1111111111"], none⟩ "2222222222" "x").2
    (by decide)

theorem phone_ok_of_tenDigits {s : String} (h : tenDigits s) :
    Phone.init s = .ok s := by
  obtain ⟨hlen, hdig⟩ := h
  have hne : ¬s.data.isEmpty := by
    rw [List.isEmpty_iff]
    intro h
    rw [String.length, h] at hlen
    simp at hlen
  have hisd : pyIsdigit s = true := by
    rw [pyIsdigit, Bool.and_eq_true, List.all_eq_true]
    exact ⟨by simpa using hne, hdig⟩
  rw [Phone.init, if_neg]
  simp [hisd, hlen]

theorem phone_err_of_not_tenDigits {s : String} (hten : ¬ tenDigits s) :
    Phone.init s
      = .error (.valueError "Invalid phone number format. Must contain 10 digits.") := by
  rw [Phone.init, if_pos]
  rw [tenDigits, not_and_or] at hten
  rcases hten with h | h
  · exact Or.inr h
  · push_neg at h
    obtain ⟨c, hc, hcd⟩ := h
    left
    have : pyIsdigit s = false := by
      rw [pyIsdigit, Bool.and_eq_false_iff]
      right
      rw [List.all_eq_false]
      exact ⟨c, hc, by simpa using hcd⟩
    simp [this]

/-- Claim C4: a string of exactly ten decimal digits yields a `Phone` that
renders back to the same string; every other string is rejected with the
`ValueError` of the Phone validator. -/
theorem C4_phone_roundtrip (s : String) :
    (tenDigits s → Phone.init s = .ok s ∧ fieldStr s = s)
    ∧ (¬ tenDigits s →
        Phone.init s
          = .error (.valueError "Invalid phone number format. Must contain 10 digits.")) :=
  ⟨fun h => ⟨phone_ok_of_tenDigits h, rfl⟩, phone_err_of_not_tenDigits⟩

/-- Claim C4, witness: a concrete ten-digit string is accepted and
round-trips. -/
theorem C4_witness : Phone.init "0123456789" = .ok "0123456789" :=
  ((C4_phone_roundtrip "0123456789").1 (by decide)).1

/-- Claim C6: the address book maintains the invariant that every key equals
the stored record's name with at most one record per name; adding then
finding the same name returns that very record, and adding a second record
with the same name overwrites the first entirely (last-write-wins). -/
theorem C6_addressbook_invariant :
    bookInv ([] : Book)
    ∧ (∀ (book : Book) (r : Record),
        bookInv book → bookInv (AddressBook.add_record book r))
    ∧ (∀ (book : Book) (r : Record),
        AddressBook.find (AddressBook.add_record book r) r.name = some r)
    ∧ (∀ (book : Book) (r1 r2 : Record), r1.name = r2.name →
        AddressBook.add_record (AddressBook.add_record book r1) r2
          = AddressBook.add_record book r2) := by
  refine ⟨⟨by simp, by simp⟩, ?_, ?_, ?_⟩
  · rintro book r ⟨h1, h2⟩
    exact ⟨dictInsert_forall book r.name r h1 rfl,
      nodup_keys_dictInsert book r.name r h2⟩
  · intro book r
    exact find_dictInsert_self book r.name r
  · intro book r1 r2 hname
    rw [AddressBook.add_record, AddressBook.add_record, AddressBook.add_record,
      ← hname, dictInsert_dictInsert]

/-- Claim C6, witness: on a concrete book, overwrite-then-find keeps only the
latest record. -/
theorem C6_witness :
    bookInv (AddressBook.add_record [] ⟨"John", ["1111111111"], none⟩)
    ∧ AddressBook.find
        (AddressBook.add_record (AddressBook.add_record [] ⟨"John", ["1111111111"], none⟩)
          ⟨"John", [], none⟩) "John" = some ⟨"John", [], none⟩ := by
  refine ⟨C6_addressbook_invariant.2.1 [] ⟨"John", ["1111111111"], none⟩
    C6_addressbook_invariant.1, ?_⟩
  have h := C6_addressbook_invariant.2.2.2 [] ⟨"John", ["1111111111"], none⟩
    ⟨"John", [], none⟩ rfl
  rw [h]
  exact C6_addressbook_invariant.2.2.1 [] ⟨"John", [], none⟩

theorem find_updateAt (book : Book) (name : String) (r r2 : Record)
    (h : AddressBook.find book name = some r) :
    AddressBook.find (updateAt name r2 book) name = some r2 := by
  induction book with
  | nil => simp [AddressBook.find] at h
  | cons p rest ih =>
    obtain ⟨k, v⟩ := p
    by_cases hk : k = name
    · simp [updateAt, hk, AddressBook.find]
    · rw [AddressBook.find, if_neg hk] at h
      simp [updateAt, hk, AddressBook.find, ih h]

theorem phone_ok_ne_empty {p q : String} (h : Phone.init p = .ok q) :
    p ≠ "" := by
  intro he
  subst he
  rw [Phone.init] at h
  simp [pyIsdigit] at h

/-- Claim C7: the `add` handler creates a new record and answers
"Contact added." when the name is absent, reuses the existing record and
answers "Contact updated." when it is present, and in both cases appends the
(non-empty) phone without deduplication. -/
theorem C7_add_contact (book : Book) (name phone : String)
    (hphone : Phone.init phone = .ok phone) (hname : Name.init name = .ok name) :
    (AddressBook.find book name = none →
      (add_contact [name, phone] book).1 = .ok "Contact added."
      ∧ AddressBook.find (add_contact [name, phone] book).2 name
          = some ⟨name, [phone], none⟩)
    ∧ (∀ r, AddressBook.find book name = some r →
      (add_contact [name, phone] book).1 = .ok "Contact updated."
      ∧ AddressBook.find (add_contact [name, phone] book).2 name
          = some { r with phones := r.phones ++ [phone] }) := by
  have hne : phone ≠ "" := phone_ok_ne_empty hphone
  constructor
  · intro hfind
    simp only [add_contact, add_contact_body, wrap, hfind, Record.init, hname,
      Record.add_phone, hphone]
    rw [if_pos hne]
    exact ⟨rfl, find_updateAt _ name _ _
      (find_dictInsert_self book name ⟨name, [], none⟩)⟩
  · intro r hfind
    simp only [add_contact, add_contact_body, wrap, hfind,
      Record.add_phone, hphone]
    rw [if_pos hne]
    exact ⟨rfl, find_updateAt _ name _ _ hfind⟩

/-- Claim C7, witness: adding `John 1234567890` twice on an empty book
answers "Contact added." then "Contact updated." and leaves two phone
entries. -/
theorem C7_witness :
    (add_contact ["John", "1234567890"] []).1 = .ok "Contact added."
    ∧ (add_contact ["John", "1234567890"]
        [("John", ⟨"John", ["1234567890"], none⟩)]).1 = .ok "Contact updated."
    ∧ AddressBook.find (add_contact ["John", "1234567890"]
        [("John", ⟨"John", ["1234567890"], none⟩)]).2 "John"
        = some ⟨"John", ["1234567890", "1234567890"], none⟩ := by
  refine ⟨((C7_add_contact [] "John" "1234567890" (by decide) (by decide)).1
      (by decide)).1, ?_, ?_⟩
  · exact ((C7_add_contact [("John", ⟨"John", ["1234567890"], none⟩)]
      "John" "1234567890" (by decide) (by decide)).2
      ⟨"John", ["1234567890"], none⟩ (by decide)).1
  · exact ((C7_add_contact [("John", ⟨"John", ["1234567890"], none⟩)]
      "John" "1234567890" (by decide) (by decide)).2
      ⟨"John", ["1234567890"], none⟩ (by decide)).2

theorem validatePhones_ok_id {parts ps : List String}
    (h : validatePhones parts = .ok ps) : ps = parts := by
  induction parts generalizing ps with
  | nil =>
    rw [validatePhones] at h
    exact (Except.ok.inj h).symm
  | cons p rest ih =>
    rw [validatePhones] at h
    rcases hp : Phone.init p with e | v
    · rw [hp] at h; exact absurd h (by simp)
    · rw [hp] at h
      have hv : v = p := by
        rw [Phone.init] at hp
        by_cases hc : (!pyIsdigit p ∨ p.length ≠ 10)
        · rw [if_pos hc] at hp; exact absurd hp (by simp)
        · rw [if_neg hc] at hp; exact (Except.ok.inj hp).symm
      rcases hrest : validatePhones rest with e | vs
      · rw [hrest] at h; exact absurd h (by simp)
      · rw [hrest] at h
        have := Except.ok.inj h
        rw [← this, hv, ih hrest]

/-- Claim C8: the `change` handler replaces the record's whole phone
sequence with exactly the validated phones of the comma-separated list, in
order, and answers with the not-found sentence (leaving the book unchanged)
for an unknown name. -/
theorem C8_change_contact (book : Book) (name listStr : String) :
    (∀ r ps, AddressBook.find book name = some r →
      validatePhones (pySplitComma listStr) = .ok ps →
      ps = pySplitComma listStr
      ∧ (change_contact [name, listStr] book).1 = .ok "Contact changed."
      ∧ AddressBook.find (change_contact [name, listStr] book).2 name
          = some { r with phones := ps })
    ∧ (AddressBook.find book name = none →
        change_contact [name, listStr] book
          = (.ok "This name is not entered in the phone book.", book)) := by
  constructor
  · intro r ps hfind hval
    refine ⟨validatePhones_ok_id hval, ?_, ?_⟩
    · simp only [change_contact, change_contact_body, wrap, handle_errors,
        hfind, hval]
    · simp only [change_contact, change_contact_body, wrap, hfind, hval]
      exact find_updateAt _ name _ _ hfind
  · intro hfind
    simp only [change_contact, change_contact_body, wrap, handle_errors, hfind]

/-- Claim C8, witness: `change John 1111111111,2222222222` replaces all of
John's phones with exactly those two entries, in that order. -/
theorem C8_witness :
    (change_contact ["John", "1111111111,2222222222"]
      [("John", ⟨"John", ["1234567890"], none⟩)]).1 = .ok "Contact changed."
    ∧ AddressBook.find (change_contact ["John", "1111111111,2222222222"]
        [("John", ⟨"John", ["1234567890"], none⟩)]).2 "John"
        = some ⟨"John", ["1111111111", "2222222222"], none⟩
    ∧ change_contact ["Ghost", "1111111111"]
        [("John", ⟨"John", ["1234567890"], none⟩)]
        = (.ok "This name is not entered in the phone book.",
           [("John", ⟨"John", ["1234567890"], none⟩)]) := by
  refine ⟨?_, ?_, ?_⟩
  · exact ((C8_change_contact [("John", ⟨"John", ["1234567890"], none⟩)]
      "John" "1111111111,2222222222").1 ⟨"John", ["1234567890"], none⟩
      ["1111111111", "2222222222"] (by decide) (by decide)).2.1
  · exact ((C8_change_contact [("John", ⟨"John", ["1234567890"], none⟩)]
      "John" "1111111111,2222222222").1 ⟨"John", ["1234567890"], none⟩
      ["1111111111", "2222222222"] (by decide) (by decide)).2.2
  · exact (C8_change_contact [("John", ⟨"John", ["1234567890"], none⟩)]
      "Ghost" "1111111111").2 (by decide)

theorem validatePhones_fails {parts : List String}
    (h : ∃ p ∈ parts, ¬ tenDigits p) :
    validatePhones parts
      = .error (.valueError "Invalid phone number format. Must contain 10 digits.") := by
  induction parts with
  | nil => simp at h
  | cons p rest ih =>
    by_cases hp : tenDigits p
    · obtain ⟨q, hq, hqn⟩ := h
      rcases List.mem_cons.mp hq with h1 | h1
      · exact absurd hp (h1 ▸ hqn)
      · rw [validatePhones, phone_ok_of_tenDigits hp, ih ⟨q, h1, hqn⟩]
    · rw [validatePhones, phone_err_of_not_tenDigits hp]

/-- Claim C10: when the record exists and any element of the comma-separated
list is not a valid ten-digit phone, `change_contact` answers with the
validation message and the book — in particular the record's phone
sequence — is exactly unchanged. -/
theorem C10_change_atomic (book : Book) (name listStr : String) (r : Record)
    (hfind : AddressBook.find book name = some r)
    (hbad : ∃ p ∈ pySplitComma listStr, ¬ tenDigits p) :
    change_contact [name, listStr] book
      = (.ok "Invalid phone number format. Must contain 10 digits.", book) := by
  simp only [change_contact, change_contact_body, wrap, handle_errors, hfind,
    validatePhones_fails hbad]

/-- Claim C10, witness: a list with a bad element leaves the concrete book
untouched and yields the validation message. -/
theorem C10_witness :
    change_contact ["John", "123,2222222222"]
      [("John", ⟨"John", ["1234567890"], none⟩)]
      = (.ok "Invalid phone number format. Must contain 10 digits.",
         [("John", ⟨"John", ["1234567890"], none⟩)]) :=
  C10_change_atomic [("John", ⟨"John", ["1234567890"], none⟩)] "John"
    "123,2222222222" ⟨"John", ["1234567890"], none⟩ (by decide) (by decide)

/-- A handler result that exhibits no uncaught `ValueError` or `KeyError`:
the two exception kinds translated by `handle_errors`. -/
def caughtOk (x : Except PyExc String) : Prop :=
  (∀ m, x ≠ .error (.valueError m)) ∧ x ≠ .error .keyError

theorem handle_errors_clears (x : Except PyExc String) :
    caughtOk (handle_errors x) := by
  rcases x with e | v
  · rcases e with m | _ | _ <;> simp [handle_errors, caughtOk]
  · simp [handle_errors, caughtOk]

theorem caughtOk_wrap (p : Except PyExc String × Book) :
    caughtOk (wrap p).1 :=
  handle_errors_clears p.1

/-- Claim C9, counterexample: `show_phone` invoked with an empty argument
list raises `IndexError`, which `handle_errors` does not catch, so the error
escapes the handler boundary instead of being converted to a string. -/
theorem C9_counterexample :
    show_phone [] [] = (.error .indexError, ([] : Book)) := by decide

/-- Claim C9, amended: every `ValueError` or `KeyError` arising inside a
handler body is caught at the handler boundary and converted to a string
message, but failures of other kinds (such as `IndexError` from a missing
argument) escape; `show-birthday` for an unknown name returns the fixed
not-found sentence. -/
theorem C9_handlers_catch_value_key_errors (args : List String) (book : Book)
    (today : Date) (name : String) :
    caughtOk (add_contact args book).1
    ∧ caughtOk (change_contact args book).1
    ∧ caughtOk (show_phone args book).1
    ∧ caughtOk (show_all book).1
    ∧ caughtOk (add_birthday args book).1
    ∧ caughtOk (show_birthday args book).1
    ∧ caughtOk (birthdays today book).1
    ∧ (AddressBook.find book name = none →
        show_birthday [name] book
          = (.ok "This name is not entered in the phone book or birthday is not set.",
             book)) := by
  refine ⟨caughtOk_wrap (add_contact_body args book),
    caughtOk_wrap (change_contact_body args book),
    caughtOk_wrap (show_phone_body args book),
    caughtOk_wrap (show_all_body book),
    caughtOk_wrap (add_birthday_body args book),
    caughtOk_wrap (show_birthday_body args book),
    caughtOk_wrap (birthdays_body today book), ?_⟩
  intro hfind
  simp only [show_birthday, show_birthday_body, wrap, handle_errors, hfind]

/-- Claim C9, witness: `show-birthday Ghost` on an empty book yields the
fixed sentence, and the `phone` handler result on those inputs carries no
uncaught `ValueError`/`KeyError`. -/
theorem C9_witness :
    show_birthday ["Ghost"] []
      = (.ok "This name is not entered in the phone book or birthday is not set.",
         ([] : Book))
    ∧ caughtOk (show_phone ["Ghost"] []).1 := by
  refine ⟨(C9_handlers_catch_value_key_errors ["Ghost"] [] ⟨2024, 1, 1⟩
    "Ghost").2.2.2.2.2.2.2 (by decide), ?_⟩
  exact (C9_handlers_catch_value_key_errors ["Ghost"] [] ⟨2024, 1, 1⟩
    "Ghost").2.2.1

theorem replaceYear_ok {d : Date} {y : Nat} {d2 : Date}
    (h : Date.replaceYear d y = .ok d2) : d2 = ⟨y, d.month, d.day⟩ := by
  rw [Date.replaceYear] at h
  by_cases hc : (Date.mk y d.month d.day).validB
  · rw [if_pos hc] at h
    exact (Except.ok.inj h).symm
  · rw [if_neg hc] at h
    exact absurd h (by simp)

theorem upcomingFrom_isSome (name : String) (today bty : Date) :
    (upcomingFrom name today bty).isSome
      ↔ (0 ≤ ((bty.toOrdinal : Int) - (today.toOrdinal : Int))
         ∧ ((bty.toOrdinal : Int) - (today.toOrdinal : Int)) ≤ 7) := by
  rw [upcomingFrom]
  split <;> simp_all

theorem upcomingFrom_some {name : String} {today bty : Date} {e : String × String}
    (h : upcomingFrom name today bty = some e) :
    e = (name, strftime_ymd (Date.addDays today
      (if bty.weekday = 5 ∨ bty.weekday = 6 then
         ((bty.toOrdinal : Int) - (today.toOrdinal : Int)) + (7 - (bty.weekday : Int))
       else ((bty.toOrdinal : Int) - (today.toOrdinal : Int))).toNat)) := by
  rw [upcomingFrom] at h
  split at h
  · exact (Option.some.inj h).symm
  · exact absurd h (by simp)

theorem upcomingEntry_ok_shape {today : Date} {r : Record} {b : Date}
    {o : Option (String × String)} (hb : r.birthday = some b)
    (ho : upcomingEntry today r = .ok o) :
    o = upcomingFrom r.name today (occurrenceSpec b today) := by
  rcases h1 : Date.replaceYear b today.year with e1 | bty0
  · simp only [upcomingEntry, hb, h1] at ho
    exact Except.noConfusion ho
  · have hbty0 : bty0 = ⟨today.year, b.month, b.day⟩ := replaceYear_ok h1
    subst hbty0
    by_cases hlt : (Date.mk today.year b.month b.day).toOrdinal < today.toOrdinal
    · rcases h2 : Date.replaceYear ⟨today.year, b.month, b.day⟩ (today.year + 1)
        with e2 | bty
      · simp only [upcomingEntry, hb, h1, if_pos hlt, h2] at ho
        exact Except.noConfusion ho
      · simp only [upcomingEntry, hb, h1, if_pos hlt, h2] at ho
        have hbty : bty = ⟨today.year + 1, b.month, b.day⟩ := replaceYear_ok h2
        have hocc : occurrenceSpec b today = ⟨today.year + 1, b.month, b.day⟩ := by
          rw [occurrenceSpec, if_pos hlt]
        rw [hocc, ← hbty]
        exact (Except.ok.inj ho).symm
    · simp only [upcomingEntry, hb, h1, if_neg hlt] at ho
      have hocc : occurrenceSpec b today = ⟨today.year, b.month, b.day⟩ := by
        rw [occurrenceSpec, if_neg hlt]
      rw [hocc]
      exact (Except.ok.inj ho).symm

theorem upcomingEntry_name {today : Date} {r : Record} {e : String × String}
    (h : upcomingEntry today r = .ok (some e)) : e.1 = r.name := by
  rcases hrb : r.birthday with _ | b
  · simp [upcomingEntry, hrb] at h
  · have hshape := upcomingEntry_ok_shape hrb h
    rw [upcomingFrom_some hshape.symm]

theorem gub_ok_entry {today : Date} {rs : List Record}
    {out : List (String × String)}
    (h : getUpcomingBirthdays today rs = .ok out) :
    ∀ r ∈ rs, ∃ o, upcomingEntry today r = .ok o := by
  induction rs generalizing out with
  | nil =>
    intro r hr
    simp at hr
  | cons q qs ih =>
    rcases hq : upcomingEntry today q with e | o
    · simp only [getUpcomingBirthdays, hq] at h
      exact Except.noConfusion h
    · rcases hrest : getUpcomingBirthdays today qs with e | rest
      · simp only [getUpcomingBirthdays, hq, hrest] at h
        exact Except.noConfusion h
      · intro r hr
        rcases List.mem_cons.mp hr with h1 | h1
        · exact ⟨o, h1 ▸ hq⟩
        · exact ih hrest r h1

theorem gub_mem_src {today : Date} {rs : List Record}
    {out : List (String × String)}
    (h : getUpcomingBirthdays today rs = .ok out) :
    ∀ e ∈ out, ∃ r ∈ rs, upcomingEntry today r = .ok (some e) := by
  induction rs generalizing out with
  | nil =>
    simp only [getUpcomingBirthdays] at h
    intro e he
    rw [← Except.ok.inj h] at he
    simp at he
  | cons q qs ih =>
    rcases hq : upcomingEntry today q with e1 | o
    · simp only [getUpcomingBirthdays, hq] at h
      exact Except.noConfusion h
    · rcases hrest : getUpcomingBirthdays today qs with e1 | rest
      · simp only [getUpcomingBirthdays, hq, hrest] at h
        exact Except.noConfusion h
      · rcases o with _ | entry
        · simp only [getUpcomingBirthdays, hq, hrest] at h
          intro e he
          rw [← Except.ok.inj h] at he
          obtain ⟨r, hr, hre⟩ := ih hrest e he
          exact ⟨r, List.mem_cons_of_mem q hr, hre⟩
        · simp only [getUpcomingBirthdays, hq, hrest] at h
          intro e he
          rw [← Except.ok.inj h] at he
          rcases List.mem_cons.mp he with h1 | h1
          · exact ⟨q, List.mem_cons_self q qs, h1 ▸ hq⟩
          · obtain ⟨r, hr, hre⟩ := ih hrest e h1
            exact ⟨r, List.mem_cons_of_mem q hr, hre⟩

theorem gub_mem_of {today : Date} {rs : List Record}
    {out : List (String × String)} {r : Record} {e : String × String}
    (h : getUpcomingBirthdays today rs = .ok out) (hr : r ∈ rs)
    (he : upcomingEntry today r = .ok (some e)) : e ∈ out := by
  induction rs generalizing out with
  | nil => simp at hr
  | cons q qs ih =>
    rcases hq : upcomingEntry today q with e1 | o
    · simp only [getUpcomingBirthdays, hq] at h
      exact Except.noConfusion h
    · rcases hrest : getUpcomingBirthdays today qs with e1 | rest
      · simp only [getUpcomingBirthdays, hq, hrest] at h
        exact Except.noConfusion h
      · rcases List.mem_cons.mp hr with h1 | h1
        · have ho : o = some e := Except.ok.inj ((h1 ▸ hq).symm.trans he)
          subst ho
          simp only [getUpcomingBirthdays, hq, hrest] at h
          rw [← Except.ok.inj h]
          exact List.mem_cons_self e _
        · have hmem := ih hrest h1
          rcases o with _ | entry
          · simp only [getUpcomingBirthdays, hq, hrest] at h
            rw [← Except.ok.inj h]
            exact hmem
          · simp only [getUpcomingBirthdays, hq, hrest] at h
            rw [← Except.ok.inj h]
            exact List.mem_cons_of_mem entry hmem

theorem mem_name_inj {rs : List Record}
    (hnd : (rs.map Record.name).Nodup) {r r' : Record}
    (h1 : r ∈ rs) (h2 : r' ∈ rs) (he : r.name = r'.name) : r = r' := by
  induction rs with
  | nil => simp at h1
  | cons q qs ih =>
    rw [List.map_cons, List.nodup_cons] at hnd
    rcases List.mem_cons.mp h1 with ha | ha <;> rcases List.mem_cons.mp h2 with hb | hb
    · rw [ha, hb]
    · subst ha
      exact absurd (he ▸ List.mem_map_of_mem Record.name hb) hnd.1
    · subst hb
      exact absurd (he ▸ List.mem_map_of_mem Record.name ha) hnd.1
    · exact ih hnd.2 ha hb

/-- Claim C1: over an address book's records (distinct names), a record with
a set birthday contributes to the output of `get_upcoming_birthdays` exactly
when the day distance to its occurrence — this year's date, rolled to next
year when already past — lies in `[0, 7]`. -/
theorem C1_upcoming_inclusion (today : Date) (rs : List Record) (r : Record)
    (b : Date) (out : List (String × String))
    (hnd : (rs.map Record.name).Nodup) (hr : r ∈ rs) (hb : r.birthday = some b)
    (hout : getUpcomingBirthdays today rs = .ok out) :
    (∃ e ∈ out, e.1 = r.name)
      ↔ (0 ≤ daysUntilSpec b today ∧ daysUntilSpec b today ≤ 7) := by
  obtain ⟨o, ho⟩ := gub_ok_entry hout r hr
  have hshape := upcomingEntry_ok_shape hb ho
  constructor
  · rintro ⟨e, he, hname⟩
    obtain ⟨r', hr', he'⟩ := gub_mem_src hout e he
    have hrr : r' = r :=
      mem_name_inj hnd hr' hr ((upcomingEntry_name he').symm.trans hname)
    subst hrr
    have hoe : o = some e := Except.ok.inj (ho.symm.trans he')
    rw [hoe] at hshape
    have : (upcomingFrom r'.name today (occurrenceSpec b today)).isSome := by
      rw [← hshape]
      rfl
    exact (upcomingFrom_isSome r'.name today (occurrenceSpec b today)).mp this
  · intro hbound
    have hsome : (upcomingFrom r.name today (occurrenceSpec b today)).isSome :=
      (upcomingFrom_isSome r.name today (occurrenceSpec b today)).mpr hbound
    rw [← hshape] at hsome
    rcases o with _ | e
    · simp at hsome
    · exact ⟨e, gub_mem_of hout hr ho, upcomingEntry_name ho⟩

/-- Claim C1, witness: for today `2024-06-10` and birthday `05.06.1990` the
occurrence rolls to `2025-06-05` and the contact is excluded from the (empty)
output. -/
theorem C1_witness :
    occurrenceSpec ⟨1990, 6, 5⟩ ⟨2024, 6, 10⟩ = ⟨2025, 6, 5⟩
    ∧ daysUntilSpec ⟨1990, 6, 5⟩ ⟨2024, 6, 10⟩ = 360
    ∧ ¬ ∃ e ∈ ([] : List (String × String)), e.1 = "A" := by
  refine ⟨by decide, by decide, fun hex => ?_⟩
  exact absurd ((C1_upcoming_inclusion ⟨2024, 6, 10⟩
      [⟨"A", [], some ⟨1990, 6, 5⟩⟩] ⟨"A", [], some ⟨1990, 6, 5⟩⟩
      ⟨1990, 6, 5⟩ [] (by decide) (by decide) rfl (by decide)).mp hex)
    (by decide)

/-- Claim C2: when an included occurrence falls on Saturday or Sunday
(weekday 5 or 6, Monday = 0), the output entry for the contact is its name
together with `today + (daysUntil + (7 − weekday))` formatted `YYYY.MM.DD` —
the congratulation date shifted to the following Monday. -/
theorem C2_weekend_shift (today : Date) (rs : List Record) (r : Record)
    (b : Date) (out : List (String × String)) (e : String × String)
    (hnd : (rs.map Record.name).Nodup) (hr : r ∈ rs) (hb : r.birthday = some b)
    (hout : getUpcomingBirthdays today rs = .ok out)
    (he : e ∈ out) (hname : e.1 = r.name)
    (hwk : (occurrenceSpec b today).weekday = 5
           ∨ (occurrenceSpec b today).weekday = 6) :
    e = (r.name, strftime_ymd (Date.addDays today
      (daysUntilSpec b today
        + (7 - ((occurrenceSpec b today).weekday : Int))).toNat)) := by
  obtain ⟨r', hr', he'⟩ := gub_mem_src hout e he
  have hrr : r' = r :=
    mem_name_inj hnd hr' hr ((upcomingEntry_name he').symm.trans hname)
  subst hrr
  have hshape := upcomingEntry_ok_shape hb he'
  have := upcomingFrom_some hshape.symm
  rw [this, if_pos hwk]
  rfl

/-- Claim C2, witness: for today `2024-06-10` and birthday `15.06.1990`
(a Saturday occurrence), the contact is included with congratulation date
`2024.06.17`. -/
theorem C2_witness :
    getUpcomingBirthdays ⟨2024, 6, 10⟩ [⟨"A", [], some ⟨1990, 6, 15⟩⟩]
      = .ok [("A", "2024.06.17")]
    ∧ ("A", "2024.06.17")
      = (("A" : String), strftime_ymd (Date.addDays ⟨2024, 6, 10⟩
          (daysUntilSpec ⟨1990, 6, 15⟩ ⟨2024, 6, 10⟩
            + (7 - ((occurrenceSpec ⟨1990, 6, 15⟩ ⟨2024, 6, 10⟩).weekday : Int))).toNat)) :=
  ⟨by decide,
   C2_weekend_shift ⟨2024, 6, 10⟩ [⟨"A", [], some ⟨1990, 6, 15⟩⟩]
     ⟨"A", [], some ⟨1990, 6, 15⟩⟩ ⟨1990, 6, 15⟩ [("A", "2024.06.17")]
     ("A", "2024.06.17") (by decide) (by decide) rfl (by decide) (by decide)
     rfl (by decide)⟩

theorem digitChar_isDigit {k : Nat} (hk : k ≤ 9) :
    isDigitChar (digitChar k) = true := by
  interval_cases k <;> decide

theorem charVal_digitChar {k : Nat} (hk : k ≤ 9) : charVal (digitChar k) = k := by
  interval_cases k <;> decide

theorem digitChar_ne_dot {k : Nat} (hk : k ≤ 9) : digitChar k ≠ '.' := by
  interval_cases k <;> decide

theorem digitChar_ne_space {k : Nat} (hk : k ≤ 9) : digitChar k ≠ ' ' := by
  interval_cases k <;> decide

theorem numVal_two (a b : Char) : numVal [a, b] = 10 * charVal a + charVal b := by
  simp only [numVal, List.foldl]
  omega

theorem numVal_four (a b c d : Char) :
    numVal [a, b, c, d]
      = 1000 * charVal a + 100 * charVal b + 10 * charVal c + charVal d := by
  simp only [numVal, List.foldl]
  omega

theorem numVal_pad2 {n : Nat} (h : n < 100) : numVal (pad2 n) = n := by
  rw [pad2, numVal_two, charVal_digitChar (by omega), charVal_digitChar (by omega)]
  omega

theorem numVal_pad4 {n : Nat} (h : n < 10000) : numVal (pad4 n) = n := by
  rw [pad4, numVal_four, charVal_digitChar (by omega), charVal_digitChar (by omega),
    charVal_digitChar (by omega), charVal_digitChar (by omega)]
  omega

theorem pad2_sep_free {n : Nat} (h : n < 100) : ∀ c ∈ pad2 n, c ≠ '.' := by
  intro c hc
  rw [pad2] at hc
  rcases List.mem_cons.mp hc with h1 | h1
  · exact h1 ▸ digitChar_ne_dot (by omega)
  · rcases List.mem_cons.mp h1 with h2 | h2
    · exact h2 ▸ digitChar_ne_dot (by omega)
    · simp at h2

theorem pad4_sep_free {n : Nat} (h : n < 10000) : ∀ c ∈ pad4 n, c ≠ '.' := by
  intro c hc
  rw [pad4] at hc
  simp only [List.mem_cons, List.not_mem_nil, or_false] at hc
  rcases hc with h1 | h1 | h1 | h1 <;>
    exact h1 ▸ digitChar_ne_dot (by omega)

theorem splitSep_no_sep {sep : Char} {xs : List Char}
    (h : ∀ c ∈ xs, c ≠ sep) : splitSep sep xs = [xs] := by
  induction xs with
  | nil => rfl
  | cons c cs ih =>
    simp only [splitSep, if_neg (h c (List.mem_cons_self c cs)),
      ih (fun x hx => h x (List.mem_cons_of_mem c hx))]

theorem splitSep_append {sep : Char} {xs rest : List Char}
    (h : ∀ c ∈ xs, c ≠ sep) :
    splitSep sep (xs ++ sep :: rest) = xs :: splitSep sep rest := by
  induction xs with
  | nil => simp [splitSep]
  | cons c cs ih =>
    simp only [List.cons_append, splitSep,
      if_neg (h c (List.mem_cons_self c cs)), List.append_eq,
      ih (fun x hx => h x (List.mem_cons_of_mem c hx))]

theorem dayTok_pad2 {n : Nat} (h : n < 100) :
    dayTok (pad2 n) = if 1 ≤ n ∧ n ≤ 31 then some n else none := by
  have h10 : n / 10 ≤ 9 := by omega
  have h1 : n % 10 ≤ 9 := by omega
  have hnv : numVal [digitChar (n / 10), digitChar (n % 10)] = n := by
    rw [numVal_two, charVal_digitChar h10, charVal_digitChar h1]
    omega
  simp [pad2, dayTok, if_neg (digitChar_ne_space h10), digitChar_isDigit h10,
    digitChar_isDigit h1, hnv]

theorem monthTok_pad2 {n : Nat} (h : n < 100) :
    monthTok (pad2 n) = if 1 ≤ n ∧ n ≤ 12 then some n else none := by
  have h10 : n / 10 ≤ 9 := by omega
  have h1 : n % 10 ≤ 9 := by omega
  have hnv : numVal [digitChar (n / 10), digitChar (n % 10)] = n := by
    rw [numVal_two, charVal_digitChar h10, charVal_digitChar h1]
    omega
  simp [pad2, monthTok, digitChar_isDigit h10, digitChar_isDigit h1, hnv]

theorem yearTok_pad4 {n : Nat} (h : n < 10000) : yearTok (pad4 n) = some n := by
  have k1 : n / 1000 ≤ 9 := by omega
  have k2 : n / 100 % 10 ≤ 9 := by omega
  have k3 : n / 10 % 10 ≤ 9 := by omega
  have k4 : n % 10 ≤ 9 := by omega
  have hnv : numVal [digitChar (n / 1000), digitChar (n / 100 % 10),
      digitChar (n / 10 % 10), digitChar (n % 10)] = n := by
    rw [numVal_four, charVal_digitChar k1, charVal_digitChar k2,
      charVal_digitChar k3, charVal_digitChar k4]
    omega
  simp [pad4, yearTok, digitChar_isDigit k1, digitChar_isDigit k2,
    digitChar_isDigit k3, digitChar_isDigit k4, hnv]

theorem daysInMonth_le_31 (y m : Nat) : daysInMonth y m ≤ 31 := by
  rw [daysInMonth]
  split_ifs <;> omega

theorem validB_bounds {d : Date} (hv : d.validB = true) :
    1 ≤ d.year ∧ d.year ≤ 9999 ∧ 1 ≤ d.month ∧ d.month ≤ 12
    ∧ 1 ≤ d.day ∧ d.day ≤ daysInMonth d.year d.month := by
  rw [Date.validB] at hv
  simp only [Bool.and_eq_true, decide_eq_true_eq] at hv
  tauto

theorem strftime_split {d : Date} (hd : d.day < 100) (hm : d.month < 100)
    (hy : d.year < 10000) :
    splitSep '.' (strftime_dmy d).data
      = [pad2 d.day, pad2 d.month, pad4 d.year] := by
  show splitSep '.' (pad2 d.day ++ ('.' :: pad2 d.month) ++ ('.' :: pad4 d.year)) = _
  rw [List.append_assoc, List.cons_append,
    splitSep_append (pad2_sep_free hd),
    splitSep_append (pad2_sep_free hm),
    splitSep_no_sep (pad4_sep_free hy)]

theorem strptime_roundtrip {d : Date} (hv : d.validB = true) :
    strptime_dmy (strftime_dmy d) = .ok d := by
  obtain ⟨hy1, hy2, hm1, hm2, hd1, hd2⟩ := validB_bounds hv
  have hd31 : d.day ≤ 31 := le_trans hd2 (daysInMonth_le_31 _ _)
  have hsplit := strftime_split (d := d) (by omega) (by omega) (by omega)
  have hdt : dayTok (pad2 d.day) = some d.day := by
    rw [dayTok_pad2 (by omega), if_pos ⟨hd1, hd31⟩]
  have hmt : monthTok (pad2 d.month) = some d.month := by
    rw [monthTok_pad2 (by omega), if_pos ⟨hm1, hm2⟩]
  have hyt : yearTok (pad4 d.year) = some d.year := yearTok_pad4 (by omega)
  simp only [strptime_dmy, hsplit, hdt, hmt, hyt]
  rw [if_pos (show (Date.mk d.year d.month d.day).validB = true from hv)]

theorem birthday_ok_of_valid {d : Date} (hv : d.validB = true) :
    Birthday.init (strftime_dmy d) = .ok d := by
  simp only [Birthday.init, strptime_roundtrip hv]

theorem birthday_err_of_invalid {d : Date} (hd : d.day < 100)
    (hm : d.month < 100) (hy : d.year < 10000) (hv : d.validB = false) :
    Birthday.init (strftime_dmy d)
      = .error (.valueError "Invalid date format. Use DD.MM.YYYY") := by
  have hsplit := strftime_split hd hm hy
  have hyt : yearTok (pad4 d.year) = some d.year := yearTok_pad4 hy
  by_cases hdc : 1 ≤ d.day ∧ d.day ≤ 31
  · by_cases hmc : 1 ≤ d.month ∧ d.month ≤ 12
    · have hdt : dayTok (pad2 d.day) = some d.day := by
        rw [dayTok_pad2 hd, if_pos hdc]
      have hmt : monthTok (pad2 d.month) = some d.month := by
        rw [monthTok_pad2 hm, if_pos hmc]
      have hsp : strptime_dmy (strftime_dmy d)
          = .error (.valueError "day is out of range for month") := by
        simp only [strptime_dmy, hsplit, hdt, hmt, hyt]
        rw [if_neg]
        intro hcc
        have hcc2 : d.validB = true := hcc
        rw [hv] at hcc2
        exact Bool.noConfusion hcc2
      simp only [Birthday.init, hsp]
    · have hdt : dayTok (pad2 d.day) = some d.day := by
        rw [dayTok_pad2 hd, if_pos hdc]
      have hmt : monthTok (pad2 d.month) = none := by
        rw [monthTok_pad2 hm, if_neg hmc]
      simp only [Birthday.init, strptime_dmy, hsplit, hdt, hmt, hyt]
  · have hdt : dayTok (pad2 d.day) = none := by
      rw [dayTok_pad2 hd, if_neg hdc]
    simp only [Birthday.init, strptime_dmy, hsplit, hdt]

theorem strptime_ok_valid {s : String} {d : Date}
    (h : strptime_dmy s = .ok d) : d.validB = true := by
  simp only [strptime_dmy] at h
  split at h
  · split at h
    · split at h
      · rw [← Except.ok.inj h]
        assumption
      · exact Except.noConfusion h
    · exact Except.noConfusion h
  · exact Except.noConfusion h

/-- Claim C5: every `DD.MM.YYYY` string denoting a real calendar date (the
canonical rendering of a valid date) is accepted by the Birthday constructor
and re-renders to the identical string; a nonexistent date in that format is
rejected with the fixed `ValueError`, and in general construction either
fails with that `ValueError` or yields a real calendar date. -/
theorem C5_birthday_roundtrip :
    (∀ (s : String) (d : Date), d.validB = true → s = strftime_dmy d →
      ∃ d2 : Date, Birthday.init s = .ok d2 ∧ strftime_dmy d2 = s)
    ∧ (∀ d : Date, d.day < 100 → d.month < 100 → d.year < 10000 →
        d.validB = false →
        Birthday.init (strftime_dmy d)
          = .error (.valueError "Invalid date format. Use DD.MM.YYYY"))
    ∧ (∀ s : String,
        Birthday.init s = .error (.valueError "Invalid date format. Use DD.MM.YYYY")
        ∨ ∃ d : Date, d.validB = true ∧ Birthday.init s = .ok d) := by
  refine ⟨?_, fun d hd hm hy hv => birthday_err_of_invalid hd hm hy hv, ?_⟩
  · intro s d hv hs
    subst hs
    exact ⟨d, birthday_ok_of_valid hv, rfl⟩
  · intro s
    rcases hp : strptime_dmy s with e | d
    · left
      simp only [Birthday.init, hp]
    · right
      exact ⟨d, strptime_ok_valid hp, by simp only [Birthday.init, hp]⟩

/-- Claim C5, witness: `15.06.1990` round-trips, and the nonexistent date
`31.02.2020` (rendered from the invalid date triple) is rejected. -/
theorem C5_witness :
    (∃ d2 : Date, Birthday.init "15.06.1990" = .ok d2
      ∧ strftime_dmy d2 = "15.06.1990")
    ∧ Birthday.init (strftime_dmy ⟨2020, 2, 31⟩)
        = .error (.valueError "Invalid date format. Use DD.MM.YYYY") :=
  ⟨C5_birthday_roundtrip.1 "15.06.1990" ⟨1990, 6, 15⟩ (by decide) (by decide),
   C5_birthday_roundtrip.2.1 ⟨2020, 2, 31⟩ (by decide) (by decide) (by decide)
     (by decide)⟩

end Hw08
